import Mathlib

/-!
# Fault injector lists

A verification development for `src/include/utils/faultinjector_lists.h`.

The header is an X-macro list: three `#ifdef` blocks, each a sequence of
invocations `FI_X(id, str)`.  The first macro argument is an enumerator name,
for the first line of every block followed by the initialiser `= 0`; the
second argument is a C string literal.  The includer chooses what an
invocation expands to by defining `FI_X` before the `#include`.

The embedding keeps the header at the level of its invocations
(`Entry`), and models the two projections the header documents:

* `#define FI_X(id, str) id,` inside `enum { ... }`  (`enumProjection`),
  with the C rule for enumeration constants: an explicit initialiser gives
  the value, otherwise the value is that of the previous enumerator plus one,
  and zero for a first enumerator without initialiser;
* `#define FI_X(id, str) str,` inside an array initialiser
  (`stringProjection`).
-/

namespace FaultInjector

/-- One invocation `FI_X(id, str)` of the header.  `id` is the enumerator
name, `init` the explicit initialiser when the first argument is written
`name = value`, and `str` the string literal. -/
structure Entry where
  id : String
  init : Option Nat
  str : String
  deriving DecidableEq, Repr

/-- The block under `#ifdef FI_TYPE` (header lines 30 to 45). -/
def FI_TYPE : List Entry :=
  [ ⟨"FaultInjectorTypeNotSpecified", some 0, ""⟩,
    ⟨"FaultInjectorTypeSleep", none, "sleep"⟩,
    ⟨"FaultInjectorTypeFatal", none, "fatal"⟩,
    ⟨"FaultInjectorTypePanic", none, "panic"⟩,
    ⟨"FaultInjectorTypeError", none, "error"⟩,
    ⟨"FaultInjectorTypeInfiniteLoop", none, "infinite_loop"⟩,
    ⟨"FaultInjectorTypeSuspend", none, "suspend"⟩,
    ⟨"FaultInjectorTypeResume", none, "resume"⟩,
    ⟨"FaultInjectorTypeSkip", none, "skip"⟩,
    ⟨"FaultInjectorTypeReset", none, "reset"⟩,
    ⟨"FaultInjectorTypeStatus", none, "status"⟩,
    ⟨"FaultInjectorTypeSegv", none, "segv"⟩,
    ⟨"FaultInjectorTypeInterrupt", none, "interrupt"⟩,
    ⟨"FaultInjectorTypeWaitUntilTriggered", none, "wait_until_triggered"⟩ ]

/-- The block under `#ifdef FI_DDL_STATEMENT` (header lines 50 to 64). -/
def FI_DDL_STATEMENT : List Entry :=
  [ ⟨"DDLNotSpecified", some 0, ""⟩,
    ⟨"CreateDatabase", none, "create_database"⟩,
    ⟨"DropDatabase", none, "drop_database"⟩,
    ⟨"CreateTable", none, "create_table"⟩,
    ⟨"DropTable", none, "drop_table"⟩,
    ⟨"CreateIndex", none, "create_index"⟩,
    ⟨"AlterIndex", none, "alter_index"⟩,
    ⟨"ReIndex", none, "reindex"⟩,
    ⟨"DropIndex", none, "drop_index"⟩,
    ⟨"CreateTablespaces", none, "create_tablespaces"⟩,
    ⟨"DropTablespaces", none, "drop_tablespaces"⟩,
    ⟨"Truncate", none, "truncate"⟩,
    ⟨"Vacuum", none, "vacuum"⟩ ]

/-- The block under `#ifdef FI_STATE` (header lines 69 to 90). -/
def FI_STATE : List Entry :=
  [ ⟨"FaultInjectorStateNotInitialized", some 0, "not initialized"⟩,
    ⟨"FaultInjectorStateWaiting", none, "set"⟩,
    ⟨"FaultInjectorStateTriggered", none, "triggered"⟩,
    ⟨"FaultInjectorStateCompleted", none, "completed"⟩,
    ⟨"FaultInjectorStateFailed", none, "failed"⟩ ]

/-- The three lists of the header, named after the macro that guards them. -/
inductive Domain where
  | FI_TYPE
  | FI_DDL_STATEMENT
  | FI_STATE
  deriving DecidableEq, Repr

/-- The block of the header guarded by the given macro. -/
def Domain.entries : Domain → List Entry
  | .FI_TYPE => FaultInjector.FI_TYPE
  | .FI_DDL_STATEMENT => FaultInjector.FI_DDL_STATEMENT
  | .FI_STATE => FaultInjector.FI_STATE

/-- The header file in textual order: the `#ifdef` blocks with their guards. -/
def faultinjector_lists : List (Domain × List Entry) :=
  [ (.FI_TYPE, FI_TYPE), (.FI_DDL_STATEMENT, FI_DDL_STATEMENT), (.FI_STATE, FI_STATE) ]

/-- Preprocessing `#include "utils/faultinjector_lists.h"` when exactly the
macros satisfying `defined` are defined: the invocations of the blocks whose
guard holds, in textual order, tagged with the macro they invoke. -/
def includeHeader (defined : Domain → Bool) : List (Domain × Entry) :=
  (faultinjector_lists.filter (fun b => defined b.1)).flatMap
    (fun b => b.2.map (fun e => (b.1, e)))

/-- C semantics of an enumerator list `id [= init], ...` whose next implicit
value is `next`: the enumerators with their values. -/
def enumFrom : Nat → List Entry → List (String × Nat)
  | _, [] => []
  | next, e :: es =>
    let v := e.init.getD next
    (e.id, v) :: enumFrom (v + 1) es

/-- The projection `#define FI_X(id, str) id,` placed in `enum { ... }`. -/
def enumProjection (l : List Entry) : List (String × Nat) :=
  enumFrom 0 l

/-- The projection `#define FI_X(id, str) str,` placed in an array
initialiser, as in the header comment for `FaultInjectorTypeStrings`. -/
def stringProjection (l : List Entry) : List String :=
  l.map (fun e => e.str)

/-- The value an enumerator without initialiser would get if it were written
after the list `l`, when the next implicit value before `l` is `next`. -/
def enumNext : Nat → List Entry → Nat
  | next, [] => next
  | next, e :: es => enumNext (e.init.getD next + 1) es

/-- The value the enum projection gives the enumerator called `name`. -/
def enumValue (l : List Entry) (name : String) : Option Nat :=
  ((enumProjection l).find? (fun p => p.1 == name)).map (fun p => p.2)

/-- The string array of the header comment, for the type list. -/
def FaultInjectorTypeStrings : List String :=
  stringProjection FI_TYPE

/-- Modelled from the spec: the error taxonomy of section 7.  The header
declares no error codes. -/
inductive FaultError where
  | UnknownIdentifier
  | AlreadyArmed
  | InvalidBudget
  | ActionFailed
  | Cancelled
  deriving DecidableEq, Repr

/-- The registry of one list: every identifier (the value the enum projection
gives the enumerator) paired with its display string (the element the string
projection yields for the same invocation). -/
def registry (l : List Entry) : List (Nat × String) :=
  ((enumProjection l).map (fun p => p.2)).zip (stringProjection l)

/-- Modelled from the spec: accessor (b) of section 4.1, the lookup from an
identifier to its display string.  The header defines no accessor. -/
def displayString (l : List Entry) (id : Nat) : Except FaultError String :=
  match (registry l).find? (fun p => p.1 == id) with
  | some p => .ok p.2
  | none => .error .UnknownIdentifier

/-- Modelled from the spec: accessor (c) of section 4.1, the reverse lookup
from a display string to the identifier, failing with `UnknownIdentifier`
when the string is not one of the closed set.  The header defines no
accessor. -/
def reverseLookup (l : List Entry) (s : String) : Except FaultError Nat :=
  match (registry l).find? (fun p => p.2 == s) with
  | some p => .ok p.1
  | none => .error .UnknownIdentifier

/-- Adding `FI_X(id, str)` after the last line of a list, as the header
comment describes ("simple add a new FI_* line to the appropriate list"). -/
def addEntry (l : List Entry) (id str : String) : List Entry :=
  l ++ [⟨id, none, str⟩]

deriving instance DecidableEq for Except

/-! ## Fault lifecycle state machine

The header only lists the states.  The operations on a fault point are code
of the surrounding system; they are modelled here from sections 3, 4.2 and 7
of the specification. -/

/-- Modelled from the spec: the closed enumeration FaultType of section 3,
the typed view of the `FI_TYPE` list that the absent operations work on. -/
inductive FaultType where
  | NotSpecified
  | Sleep
  | Fatal
  | Panic
  | Error
  | InfiniteLoop
  | Suspend
  | Resume
  | Skip
  | Reset
  | Status
  | Segv
  | Interrupt
  | WaitUntilTriggered
  deriving DecidableEq, Repr

/-- Modelled from the spec: the closed enumeration DDLStatementKind of
section 3, the typed view of the `FI_DDL_STATEMENT` list that the absent
operations work on. -/
inductive DDLStatementKind where
  | NotSpecified
  | CreateDatabase
  | DropDatabase
  | CreateTable
  | DropTable
  | CreateIndex
  | AlterIndex
  | ReIndex
  | DropIndex
  | CreateTablespaces
  | DropTablespaces
  | Truncate
  | Vacuum
  deriving DecidableEq, Repr

/-- Modelled from the spec: the closed enumeration FaultState of section 3,
the typed view of the `FI_STATE` list that the absent operations work on. -/
inductive FaultState where
  | NotInitialized
  | Waiting
  | Triggered
  | Completed
  | Failed
  deriving DecidableEq, Repr

/-- Modelled from the spec: a trigger budget (section 4.2, `arm`): a number
of firings, or the sentinel meaning "unlimited until explicitly reset".  The
fault point structure is absent from the header. -/
inductive Budget where
  | count (n : Int)
  | unlimited
  deriving DecidableEq, Repr

/-- Modelled from the spec: `triggerBudget` is valid when it is at least 1 or
the unlimited sentinel (sections 4.2 and 7, `InvalidBudget`). -/
def Budget.valid : Budget → Bool
  | .count n => decide (1 ≤ n)
  | .unlimited => true

/-- Modelled from the spec: "remaining budget > 0" of `reach`; the
unlimited sentinel never runs out. -/
def Budget.positive : Budget → Bool
  | .count n => decide (0 < n)
  | .unlimited => true

/-- Modelled from the spec: "decrement budget" of `reach`; the unlimited
sentinel stays unlimited. -/
def Budget.decrement : Budget → Budget
  | .count n => .count (n - 1)
  | .unlimited => .unlimited

/-- Modelled from the spec: "budget reaches 0 after decrement" of `reach`. -/
def Budget.exhausted : Budget → Bool
  | .count n => decide (n ≤ 0)
  | .unlimited => false

/-- Modelled from the spec: the FaultInjectionPoint of section 3, "a named
instrumentation location, owning one FaultType, one optional
DDLStatementKind filter, a remaining-trigger counter, and a FaultState".
The structure is absent from the header. -/
structure FaultInjectionPoint where
  name : String
  faultType : FaultType
  ddlFilter : Option DDLStatementKind
  remaining : Budget
  state : FaultState
  deriving DecidableEq, Repr

/-- Modelled from the spec: `status(point)` of section 4.2, the current
FaultState, read-only.  The function is absent from the header. -/
def status (p : FaultInjectionPoint) : FaultState :=
  p.state

/-- Modelled from the spec: `arm(point, type, ddlFilter?, triggerBudget)` of
section 4.2, absent from the header.  The only transition is NotInitialized
to Waiting; from any other state the call fails with `AlreadyArmed`, and an
invalid budget fails with `InvalidBudget`.  Both checks precede any mutation
(section 7), and the state check comes first, since section 8 has `arm` on a
Waiting point fail with `AlreadyArmed` whatever its arguments. -/
def arm (p : FaultInjectionPoint) (type : FaultType)
    (ddlFilter : Option DDLStatementKind) (triggerBudget : Budget) :
    Except FaultError FaultInjectionPoint :=
  if p.state ≠ FaultState.NotInitialized then .error .AlreadyArmed
  else if triggerBudget.valid = false then .error .InvalidBudget
  else .ok { p with
    faultType := type
    ddlFilter := ddlFilter
    remaining := triggerBudget
    state := FaultState.Waiting }

/-- Modelled from the spec: what one call of `reach` (section 4.2, absent
from the header) leaves behind: the fault point, the world the action
callback acts on, and the result surfaced to the engine caller. -/
structure ReachResult (σ : Type) where
  point : FaultInjectionPoint
  world : σ
  result : Except FaultError Unit

/-- Modelled from the spec: `reach(point)` of section 4.2, absent from the
header.  The side-effect callback of section 6 is the parameter `action`: it
receives the fault type and the world it acts on, and returns the new world
and whether the action completed.  The callback is invoked only where
`action` is applied below.

* Waiting or Triggered with remaining budget > 0: perform the action; when it
  completes, decrement the budget and go to Triggered, or to Completed if the
  budget reaches 0 after the decrement; when it cannot be completed, go to
  Failed and surface `ActionFailed`.
* NotInitialized or Completed: no-op.
* The spec gives no transition for a Failed point nor for a Waiting or
  Triggered point without remaining budget; they are left untouched here.

Blocking of the calling worker (Suspend, WaitUntilTriggered) happens inside
the callback and is not part of this sequential model. -/
def reach {σ : Type} (action : FaultType → σ → σ × Bool)
    (p : FaultInjectionPoint) (w : σ) : ReachResult σ :=
  match p.state with
  | .NotInitialized => ⟨p, w, .ok ()⟩
  | .Completed => ⟨p, w, .ok ()⟩
  | .Failed => ⟨p, w, .ok ()⟩
  | .Waiting | .Triggered =>
    if p.remaining.positive then
      let r := action p.faultType w
      if r.2 then
        let b := p.remaining.decrement
        ⟨{ p with
            remaining := b
            state := if b.exhausted then FaultState.Completed else FaultState.Triggered },
          r.1, .ok ()⟩
      else ⟨{ p with state := FaultState.Failed }, r.1, .error .ActionFailed⟩
    else ⟨p, w, .ok ()⟩

/-- The fault point and the world after `k` successive calls of `reach`. -/
def reachTimes {σ : Type} (action : FaultType → σ → σ × Bool) :
    Nat → FaultInjectionPoint → σ → FaultInjectionPoint × σ
  | 0, p, w => (p, w)
  | k + 1, p, w =>
    let r := reach action p w
    reachTimes action k r.point r.world

/-- Modelled from the spec: `reset(point)` of section 4.2, absent from the
header: "any state → NotInitialized, discarding remaining budget".  The
cleared budget is the counter 0; the spec does not say that type or filter
change, and they are kept. -/
def reset (p : FaultInjectionPoint) : FaultInjectionPoint :=
  { p with
    remaining := Budget.count 0
    state := FaultState.NotInitialized }

/-- An action callback that only counts its invocations and always completes:
the "atomic counter" by which section 8 observes firings. -/
def countingAction (_ : FaultType) (n : Nat) : Nat × Bool :=
  (n + 1, true)

/-- A fault point on which nothing has been armed yet. -/
def freshPoint (name : String) : FaultInjectionPoint :=
  { name := name
    faultType := FaultType.NotSpecified
    ddlFilter := none
    remaining := Budget.count 0
    state := FaultState.NotInitialized }

/-- Modelled from the spec: `arm` as seen on the shared fault point
(sections 5 and 7), absent from the header: the point after the call and the
result reported to the harness.  A call that `arm` rejects is "rejected
before any state mutation", so the point stays the one before the call. -/
def armPoint (p : FaultInjectionPoint) (type : FaultType)
    (ddlFilter : Option DDLStatementKind) (triggerBudget : Budget) :
    FaultInjectionPoint × Except FaultError Unit :=
  match arm p type ddlFilter triggerBudget with
  | .ok q => (q, .ok ())
  | .error e => (p, .error e)

/-- The invocations of one list as they appear in the preprocessed output,
tagged with the macro they invoke. -/
def Domain.invocations (d : Domain) : List (Domain × Entry) :=
  d.entries.map (fun e => (d, e))

/-! ## Lemmas on the projections -/

theorem enumFrom_length (l : List Entry) :
    ∀ next, (enumFrom next l).length = l.length := by
  induction l with
  | nil => intro next; rfl
  | cons e es ih => intro next; simp [enumFrom, ih]

theorem enumFrom_names (l : List Entry) :
    ∀ next, (enumFrom next l).map Prod.fst = l.map (fun e => e.id) := by
  induction l with
  | nil => intro next; rfl
  | cons e es ih => intro next; simp [enumFrom, ih]

theorem enumFrom_append (l₁ l₂ : List Entry) :
    ∀ next, enumFrom next (l₁ ++ l₂) = enumFrom next l₁ ++ enumFrom (enumNext next l₁) l₂ := by
  induction l₁ with
  | nil => intro next; rfl
  | cons e es ih => intro next; simp [enumFrom, enumNext, ih]

theorem registry_map_snd (l : List Entry) :
    (registry l).map Prod.snd = stringProjection l := by
  unfold registry
  apply List.map_snd_zip
  simp [stringProjection, enumProjection, enumFrom_length]

theorem reverseLookup_error_iff (l : List Entry) (s : String) :
    reverseLookup l s = .error .UnknownIdentifier ↔ s ∉ stringProjection l := by
  rw [← registry_map_snd]
  unfold reverseLookup
  cases h : (registry l).find? (fun p => p.2 == s) with
  | none =>
    simp only [true_iff]
    rw [List.find?_eq_none] at h
    intro hm
    obtain ⟨p, hp, rfl⟩ := List.mem_map.1 hm
    exact h p hp (by simp)
  | some p =>
    simp only [reduceCtorEq, false_iff, not_not]
    have hs := List.find?_some h
    have hm := List.mem_of_find?_eq_some h
    exact List.mem_map.2 ⟨p, hm, by simpa using hs⟩

theorem toOption_eq_some {ε α : Type} (x : Except ε α) (a : α)
    (h : x.toOption = some a) : x = .ok a := by
  cases x with
  | error e => simp [Except.toOption] at h
  | ok b => simp [Except.toOption] at h; rw [h]

theorem lookup_of_mem (d : Domain) : ∀ x ∈ stringProjection d.entries,
    ∃ id, (reverseLookup d.entries x).toOption = some id ∧
      displayString d.entries id = .ok x := by
  cases d <;> decide

theorem sync_of_mem (d : Domain) : ∀ e ∈ d.entries,
    ∃ v, enumValue d.entries e.id = some v ∧
      (stringProjection d.entries)[v]? = some e.str := by
  cases d <;> decide

theorem enumNext_entries (d : Domain) : enumNext 0 d.entries = d.entries.length := by
  cases d <;> decide

theorem enumProjection_addEntry (l : List Entry) (id str : String) :
    enumProjection (addEntry l id str) = enumProjection l ++ [(id, enumNext 0 l)] := by
  simp [enumProjection, addEntry, enumFrom_append, enumFrom]

theorem stringProjection_addEntry (l : List Entry) (id str : String) :
    stringProjection (addEntry l id str) = stringProjection l ++ [str] := by
  simp [stringProjection, addEntry]

theorem enumValue_addEntry_old (l : List Entry) (id str name : String)
    (h : name ∈ l.map (fun e => e.id)) :
    enumValue (addEntry l id str) name = enumValue l name := by
  unfold enumValue
  rw [enumProjection_addEntry, List.find?_append]
  cases hf : (enumProjection l).find? (fun p => p.1 == name) with
  | some p => rfl
  | none =>
    exfalso
    rw [List.find?_eq_none] at hf
    rw [← enumFrom_names l 0] at h
    obtain ⟨p, hp, rfl⟩ := List.mem_map.1 h
    exact hf p hp (by simp)

theorem enumValue_addEntry_new (l : List Entry) (id str : String)
    (h : id ∉ l.map (fun e => e.id)) :
    enumValue (addEntry l id str) id = some (enumNext 0 l) := by
  unfold enumValue
  rw [enumProjection_addEntry, List.find?_append]
  have hf : (enumProjection l).find? (fun p => p.1 == id) = none := by
    rw [List.find?_eq_none]
    intro p hp hq
    apply h
    rw [← enumFrom_names l 0]
    exact List.mem_map.2 ⟨p, hp, by simpa using hq⟩
  rw [hf]
  simp

theorem registry_addEntry (l : List Entry) (id str : String) :
    registry (addEntry l id str) = registry l ++ [(enumNext 0 l, str)] := by
  unfold registry
  rw [enumProjection_addEntry]
  simp only [stringProjection, addEntry, List.map_append, List.map_cons, List.map_nil]
  rw [List.zip_append]
  · rfl
  · simp [enumProjection, enumFrom_length]

/-! ## Lemmas on the state machine -/

theorem reach_of_noop_state {σ : Type} (action : FaultType → σ → σ × Bool)
    (p : FaultInjectionPoint) (w : σ)
    (h : p.state = FaultState.NotInitialized ∨ p.state = FaultState.Completed) :
    reach action p w = ⟨p, w, .ok ()⟩ := by
  rcases h with h | h <;> simp [reach, h]

theorem reachTimes_completed {σ : Type} (action : FaultType → σ → σ × Bool) :
    ∀ (k : Nat) (p : FaultInjectionPoint) (w : σ),
      p.state = FaultState.Completed → reachTimes action k p w = (p, w) := by
  intro k
  induction k with
  | zero => intro p w _; rfl
  | succ k ih =>
    intro p w h
    simp only [reachTimes, reach_of_noop_state action p w (Or.inr h)]
    exact ih p w h

theorem reachTimes_armed {σ : Type} (action : FaultType → σ → σ × Bool)
    (hok : ∀ w, (action FaultType.Error w).2 = true) :
    ∀ (k m : Nat) (p : FaultInjectionPoint) (w : σ),
      (p.state = FaultState.Waiting ∨ p.state = FaultState.Triggered) →
      p.faultType = FaultType.Error →
      p.remaining = Budget.count ((m + 1 : Nat) : Int) →
      (reachTimes action k p w).2
          = (fun x => (action FaultType.Error x).1)^[min k (m + 1)] w ∧
      (1 ≤ k → k < m + 1 → (reachTimes action k p w).1.state = FaultState.Triggered) ∧
      (m + 1 ≤ k → (reachTimes action k p w).1.state = FaultState.Completed) := by
  intro k
  induction k with
  | zero =>
    intro m p w _ _ _
    refine ⟨rfl, fun h => absurd h (by decide), fun h => absurd h (by omega)⟩
  | succ k ih =>
    intro m p w hs ht hr
    have hpos : p.remaining.positive = true := by
      rw [hr]
      exact decide_eq_true (by omega)
    have hdec : p.remaining.decrement = Budget.count (m : Int) := by
      rw [hr]
      show Budget.count (((m + 1 : Nat) : Int) - 1) = Budget.count (m : Int)
      congr 1
      omega
    have hex : (Budget.count (m : Int)).exhausted = decide (m = 0) := by
      show decide ((m : Int) ≤ 0) = decide (m = 0)
      congr 1
      exact propext ⟨fun h => by omega, fun h => by omega⟩
    have hreach : reach action p w =
        ⟨{ p with
            remaining := Budget.count (m : Int)
            state := if m = 0 then FaultState.Completed else FaultState.Triggered },
          (action FaultType.Error w).1, .ok ()⟩ := by
      rcases hs with hs | hs <;>
        simp [reach, hs, hpos, ht, hok, hdec, hex]
    simp only [reachTimes, hreach]
    cases m with
    | zero =>
      rw [reachTimes_completed action k _ _ (by simp)]
      refine ⟨?_, fun _ h => absurd h (by omega), fun _ => by simp⟩
      have hmin : min (k + 1) (0 + 1) = 1 := by omega
      rw [hmin]; rfl
    | succ m =>
      obtain ⟨h₁, h₂, h₃⟩ := ih m
        { p with
          remaining := Budget.count ((m + 1 : Nat) : Int)
          state := if m + 1 = 0 then FaultState.Completed else FaultState.Triggered }
        ((action FaultType.Error w).1) (Or.inr (by simp)) ht rfl
      refine ⟨?_, ?_, ?_⟩
      · rw [h₁]
        have hmin : min (k + 1) (m + 1 + 1) = min k (m + 1) + 1 := by omega
        rw [hmin, Function.iterate_succ_apply]
      · intro _ hlt
        by_cases hk : k = 0
        · subst hk; simp [reachTimes]
        · exact h₂ (by omega) (by omega)
      · intro hle
        exact h₃ (by omega)

/-! ## The registry -/

/-- C1: round-trip law.  In each of the three lists, every invocation
`FI_X(id, str)` gives its enumerator a value under the enum projection, the
display string of that value is `str`, and the reverse lookup of `str` in the
same list succeeds and returns that value; the display strings of one list
are pairwise distinct.  For the type list, `wait_until_triggered` is looked
up as `FaultInjectorTypeWaitUntilTriggered` (13), whose display string is
`wait_until_triggered` again. -/
theorem round_trip (d : Domain) :
    (∀ e ∈ d.entries, ∃ id, enumValue d.entries e.id = some id ∧
        displayString d.entries id = .ok e.str ∧
        reverseLookup d.entries e.str = .ok id) ∧
    (stringProjection d.entries).Nodup ∧
    (reverseLookup FI_TYPE "wait_until_triggered" = .ok 13 ∧
      enumValue FI_TYPE "FaultInjectorTypeWaitUntilTriggered" = some 13 ∧
      displayString FI_TYPE 13 = .ok "wait_until_triggered") := by
  cases d <;> decide

/-- Witness of C1 at the invocation
`FI_TYPE(FaultInjectorTypeWaitUntilTriggered, "wait_until_triggered")`. -/
theorem round_trip_witness :
    (⟨"FaultInjectorTypeWaitUntilTriggered", none, "wait_until_triggered"⟩ : Entry)
        ∈ Domain.FI_TYPE.entries ∧
    ∃ id, enumValue Domain.FI_TYPE.entries "FaultInjectorTypeWaitUntilTriggered" = some id ∧
      displayString Domain.FI_TYPE.entries id = .ok "wait_until_triggered" ∧
      reverseLookup Domain.FI_TYPE.entries "wait_until_triggered" = .ok id :=
  ⟨by decide,
   (round_trip Domain.FI_TYPE).1
     ⟨"FaultInjectorTypeWaitUntilTriggered", none, "wait_until_triggered"⟩ (by decide)⟩

/-- C2: the reverse lookup fails exactly on unknown strings.  In each list
and for every string `s`, the reverse lookup of `s` fails with
`UnknownIdentifier` if and only if `s` is not the display string of an
invocation of that list; otherwise it returns an identifier whose display
string is `s`. -/
theorem reverseLookup_fails_iff (d : Domain) (s : String) :
    (reverseLookup d.entries s = .error .UnknownIdentifier ↔
        s ∉ stringProjection d.entries) ∧
    (s ∈ stringProjection d.entries →
        ∃ id, reverseLookup d.entries s = .ok id ∧ displayString d.entries id = .ok s) := by
  refine ⟨reverseLookup_error_iff d.entries s, fun hs => ?_⟩
  obtain ⟨id, h₁, h₂⟩ := lookup_of_mem d s hs
  exact ⟨id, toOption_eq_some _ _ h₁, h₂⟩

/-- Witness of C2 in the type list: `waiting` and `Sleep` are rejected,
`sleep` is accepted. -/
theorem reverseLookup_fails_iff_witness :
    reverseLookup FI_TYPE "waiting" = .error .UnknownIdentifier ∧
    reverseLookup FI_TYPE "Sleep" = .error .UnknownIdentifier ∧
    "sleep" ∈ stringProjection FI_TYPE ∧
    ∃ id, reverseLookup FI_TYPE "sleep" = .ok id ∧ displayString FI_TYPE id = .ok "sleep" :=
  ⟨(reverseLookup_fails_iff Domain.FI_TYPE "waiting").1.2 (by decide),
   (reverseLookup_fails_iff Domain.FI_TYPE "Sleep").1.2 (by decide),
   by decide,
   (reverseLookup_fails_iff Domain.FI_TYPE "sleep").2 (by decide)⟩

/-- C3: identifier numbering.  In each list the enum projection gives the
enumerators the values 0, 1, ..., n-1 in list order; only the first
invocation carries an explicit initialiser, which is `= 0`; and the one
enumerator with value 0 is `FaultInjectorTypeNotSpecified`, `DDLNotSpecified`
and `FaultInjectorStateNotInitialized` respectively. -/
theorem enum_numbering (d : Domain) :
    (enumProjection d.entries).map Prod.snd = List.range d.entries.length ∧
    d.entries.map (fun e => e.init)
      = some 0 :: List.replicate (d.entries.length - 1) none ∧
    (enumProjection FI_TYPE).filter (fun p => p.2 == 0)
      = [("FaultInjectorTypeNotSpecified", 0)] ∧
    (enumProjection FI_DDL_STATEMENT).filter (fun p => p.2 == 0)
      = [("DDLNotSpecified", 0)] ∧
    (enumProjection FI_STATE).filter (fun p => p.2 == 0)
      = [("FaultInjectorStateNotInitialized", 0)] := by
  cases d <;> decide

/-- C4: closed value sets and counts.  The enum projection of the type list
declares exactly the 14 enumerators NotSpecified, Sleep, Fatal, Panic, Error,
InfiniteLoop, Suspend, Resume, Skip, Reset, Status, Segv, Interrupt,
WaitUntilTriggered in that order; that of the DDL list exactly the 13
enumerators NotSpecified, CreateDatabase, ..., Vacuum; that of the state list
exactly the 5 enumerators NotInitialized, Waiting, Triggered, Completed,
Failed. -/
theorem closed_value_sets :
    (enumProjection FI_TYPE).map Prod.fst =
      ["FaultInjectorTypeNotSpecified", "FaultInjectorTypeSleep",
       "FaultInjectorTypeFatal", "FaultInjectorTypePanic", "FaultInjectorTypeError",
       "FaultInjectorTypeInfiniteLoop", "FaultInjectorTypeSuspend",
       "FaultInjectorTypeResume", "FaultInjectorTypeSkip", "FaultInjectorTypeReset",
       "FaultInjectorTypeStatus", "FaultInjectorTypeSegv", "FaultInjectorTypeInterrupt",
       "FaultInjectorTypeWaitUntilTriggered"] ∧
    (enumProjection FI_TYPE).length = 14 ∧
    (enumProjection FI_DDL_STATEMENT).map Prod.fst =
      ["DDLNotSpecified", "CreateDatabase", "DropDatabase", "CreateTable", "DropTable",
       "CreateIndex", "AlterIndex", "ReIndex", "DropIndex", "CreateTablespaces",
       "DropTablespaces", "Truncate", "Vacuum"] ∧
    (enumProjection FI_DDL_STATEMENT).length = 13 ∧
    (enumProjection FI_STATE).map Prod.fst =
      ["FaultInjectorStateNotInitialized", "FaultInjectorStateWaiting",
       "FaultInjectorStateTriggered", "FaultInjectorStateCompleted",
       "FaultInjectorStateFailed"] ∧
    (enumProjection FI_STATE).length = 5 := by
  decide

/-- C5: one canonical string per value.  In each list every enumerator is
declared by exactly one invocation, and its value is paired with exactly one
display string in the registry, the one of that invocation; the display
string of `FaultInjectorTypeNotSpecified` and that of `DDLNotSpecified` is the
empty string. -/
theorem one_string_per_value (d : Domain) :
    (∀ e ∈ d.entries,
        d.entries.filter (fun x => x.id == e.id) = [e] ∧
        ∃ id, enumValue d.entries e.id = some id ∧
          (registry d.entries).filter (fun p => p.1 == id) = [(id, e.str)]) ∧
    (∃ id, enumValue FI_TYPE "FaultInjectorTypeNotSpecified" = some id ∧
        (registry FI_TYPE).filter (fun p => p.1 == id) = [(id, "")]) ∧
    (∃ id, enumValue FI_DDL_STATEMENT "DDLNotSpecified" = some id ∧
        (registry FI_DDL_STATEMENT).filter (fun p => p.1 == id) = [(id, "")]) := by
  cases d <;> decide

/-- Witness of C5 at the invocation `FI_STATE(FaultInjectorStateWaiting, "set")`. -/
theorem one_string_per_value_witness :
    (⟨"FaultInjectorStateWaiting", none, "set"⟩ : Entry) ∈ Domain.FI_STATE.entries ∧
    Domain.FI_STATE.entries.filter (fun x => x.id == "FaultInjectorStateWaiting")
      = [⟨"FaultInjectorStateWaiting", none, "set"⟩] ∧
    ∃ id, enumValue Domain.FI_STATE.entries "FaultInjectorStateWaiting" = some id ∧
      (registry Domain.FI_STATE.entries).filter (fun p => p.1 == id) = [(id, "set")] :=
  ⟨by decide,
   (one_string_per_value Domain.FI_STATE).1
     ⟨"FaultInjectorStateWaiting", none, "set"⟩ (by decide)⟩

/-- C6: the projections stay in sync.  For each list, the string array
obtained by `#define FI_X(id, str) str,` has as many elements as the enum
projection `#define FI_X(id, str) id,` has enumerators, and for every
invocation `FI_X(id, str)` the array element at the index that is the value
of `id` is `str`.  `FaultInjectorTypeStrings[FaultInjectorTypeSegv]` is
`segv`, with `FaultInjectorTypeSegv` = 11. -/
theorem projections_in_sync (d : Domain) :
    (stringProjection d.entries).length = (enumProjection d.entries).length ∧
    (∀ e ∈ d.entries, ∃ v, enumValue d.entries e.id = some v ∧
        (stringProjection d.entries)[v]? = some e.str) ∧
    (enumValue FI_TYPE "FaultInjectorTypeSegv" = some 11 ∧
      FaultInjectorTypeStrings[11]? = some "segv") := by
  cases d <;> decide

/-- Witness of C6 at the invocation `FI_TYPE(FaultInjectorTypeSegv, "segv")`. -/
theorem projections_in_sync_witness :
    (⟨"FaultInjectorTypeSegv", none, "segv"⟩ : Entry) ∈ Domain.FI_TYPE.entries ∧
    ∃ v, enumValue Domain.FI_TYPE.entries "FaultInjectorTypeSegv" = some v ∧
      (stringProjection Domain.FI_TYPE.entries)[v]? = some "segv" :=
  ⟨by decide,
   (projections_in_sync Domain.FI_TYPE).2.1
     ⟨"FaultInjectorTypeSegv", none, "segv"⟩ (by decide)⟩

/-- C7: append-only stability.  For each list, when an invocation with a
fresh enumerator name, no initialiser and any string is added after the last
line, every enumerator of the old list keeps its value and the array element
at that value stays its display string, the new enumerator gets the value
equal to the old count and its string sits at that index, and both
projections grow by exactly one element, at the end. -/
theorem append_only (d : Domain) (id str : String)
    (hfresh : id ∉ d.entries.map (fun e => e.id)) :
    (∀ e ∈ d.entries, ∃ v, enumValue d.entries e.id = some v ∧
        enumValue (addEntry d.entries id str) e.id = some v ∧
        (stringProjection d.entries)[v]? = some e.str ∧
        (stringProjection (addEntry d.entries id str))[v]? = some e.str) ∧
    enumValue (addEntry d.entries id str) id = some (enumProjection d.entries).length ∧
    (stringProjection (addEntry d.entries id str))[(enumProjection d.entries).length]?
      = some str ∧
    (enumProjection (addEntry d.entries id str)).length
      = (enumProjection d.entries).length + 1 ∧
    (stringProjection (addEntry d.entries id str)).length
      = (stringProjection d.entries).length + 1 ∧
    enumProjection (addEntry d.entries id str)
      = enumProjection d.entries ++ [(id, (enumProjection d.entries).length)] ∧
    registry (addEntry d.entries id str)
      = registry d.entries ++ [((enumProjection d.entries).length, str)] := by
  have hlen : (enumProjection d.entries).length = d.entries.length := enumFrom_length _ 0
  have hnext : enumNext 0 d.entries = (enumProjection d.entries).length := by
    rw [hlen]; exact enumNext_entries d
  refine ⟨?_, ?_, ?_, ?_, ?_, ?_, ?_⟩
  · intro e he
    obtain ⟨v, hv, hs⟩ := sync_of_mem d e he
    refine ⟨v, hv, ?_, hs, ?_⟩
    · rw [enumValue_addEntry_old _ _ _ _ (List.mem_map.2 ⟨e, he, rfl⟩)]
      exact hv
    · rw [stringProjection_addEntry]
      have hlt : v < (stringProjection d.entries).length := by
        by_contra hge
        rw [List.getElem?_eq_none (Nat.le_of_not_lt hge)] at hs
        exact Option.noConfusion hs
      rw [List.getElem?_append_left hlt]
      exact hs
  · rw [enumValue_addEntry_new _ _ _ hfresh, hnext]
  · rw [stringProjection_addEntry, hlen]
    simp [stringProjection]
  · rw [enumProjection_addEntry]
    simp
  · rw [stringProjection_addEntry]
    simp
  · rw [enumProjection_addEntry, hnext]
  · rw [registry_addEntry, hnext]

/-- Witness of C7: `FI_TYPE(FaultInjectorTypeTimeout, "timeout")` added after
the last line of the type list. -/
theorem append_only_witness :
    "FaultInjectorTypeTimeout" ∉ Domain.FI_TYPE.entries.map (fun e => e.id) ∧
    enumValue (addEntry Domain.FI_TYPE.entries "FaultInjectorTypeTimeout" "timeout")
      "FaultInjectorTypeTimeout" = some (enumProjection Domain.FI_TYPE.entries).length ∧
    (enumProjection (addEntry Domain.FI_TYPE.entries "FaultInjectorTypeTimeout" "timeout")).length
      = (enumProjection Domain.FI_TYPE.entries).length + 1 :=
  ⟨by decide,
   (append_only Domain.FI_TYPE "FaultInjectorTypeTimeout" "timeout" (by decide)).2.1,
   (append_only Domain.FI_TYPE "FaultInjectorTypeTimeout" "timeout" (by decide)).2.2.2.1⟩

/-! ## The fault lifecycle state machine -/

/-- C8: `reach` is a no-op on an unarmed or retired point.  For every fault
point whose state is NotInitialized or Completed, every action callback and
every world the callback could act on, `reach` returns the point as it was
(state, type, filter and remaining budget included) and the world as it was:
the callback has not been invoked. -/
theorem reach_noop {σ : Type} (action : FaultType → σ → σ × Bool)
    (p : FaultInjectionPoint) (w : σ)
    (h : p.state = FaultState.NotInitialized ∨ p.state = FaultState.Completed) :
    (reach action p w).point = p ∧
    (reach action p w).world = w ∧
    (reach action p w).result = .ok () ∧
    (reach action p w).point.state = p.state ∧
    (reach action p w).point.faultType = p.faultType ∧
    (reach action p w).point.ddlFilter = p.ddlFilter ∧
    (reach action p w).point.remaining = p.remaining := by
  rw [reach_of_noop_state action p w h]
  exact ⟨rfl, rfl, rfl, rfl, rfl, rfl, rfl⟩

/-- Witness of C8: a Completed point of type Sleep with a stale budget and a
callback that counts its invocations; the counter stays at 0. -/
theorem reach_noop_witness :
    (⟨"p", FaultType.Sleep, some DDLStatementKind.Vacuum, Budget.count 7,
        FaultState.Completed⟩ : FaultInjectionPoint).state = FaultState.Completed ∧
    (reach countingAction
        ⟨"p", FaultType.Sleep, some DDLStatementKind.Vacuum, Budget.count 7,
          FaultState.Completed⟩ 0).world = 0 ∧
    (reach countingAction
        ⟨"p", FaultType.Sleep, some DDLStatementKind.Vacuum, Budget.count 7,
          FaultState.Completed⟩ 0).point
      = ⟨"p", FaultType.Sleep, some DDLStatementKind.Vacuum, Budget.count 7,
          FaultState.Completed⟩ :=
  ⟨rfl,
   (reach_noop countingAction
      ⟨"p", FaultType.Sleep, some DDLStatementKind.Vacuum, Budget.count 7,
        FaultState.Completed⟩ 0 (Or.inr rfl)).2.1,
   (reach_noop countingAction
      ⟨"p", FaultType.Sleep, some DDLStatementKind.Vacuum, Budget.count 7,
        FaultState.Completed⟩ 0 (Or.inr rfl)).1⟩

/-- C9: the trigger budget is honoured exactly.  The claim describes firings
of the action, that is, calls of the callback that complete (`hok`); the
transition taken when an action cannot be completed is another sentence of
section 4.2.  On a NotInitialized point, `arm(point, Error, n)` with `n ≥ 1`
succeeds and leaves the state Waiting; of the following calls of `reach`
exactly the first `n` fire the action, once each (the world after `k` calls
is the action applied `min k n` times); the state is Triggered after calls 1
to n-1 and Completed after call n and every later call.  For budget 3:
Triggered, Triggered, Completed, and a fourth call changes nothing. -/
theorem trigger_budget (p : FaultInjectionPoint)
    (hp : p.state = FaultState.NotInitialized) (ddlFilter : Option DDLStatementKind)
    {σ : Type} (action : FaultType → σ → σ × Bool)
    (hok : ∀ w, (action FaultType.Error w).2 = true) (w : σ) :
    (∃ q, arm p FaultType.Error ddlFilter (Budget.count 3) = .ok q ∧
      q.state = FaultState.Waiting ∧
      (reachTimes action 1 q w).1.state = FaultState.Triggered ∧
      (reachTimes action 2 q w).1.state = FaultState.Triggered ∧
      (reachTimes action 3 q w).1.state = FaultState.Completed ∧
      (reachTimes action 4 q w).1.state = FaultState.Completed ∧
      (reachTimes action 1 q w).2 = (action FaultType.Error w).1 ∧
      (reachTimes action 2 q w).2
        = (action FaultType.Error (reachTimes action 1 q w).2).1 ∧
      (reachTimes action 3 q w).2
        = (action FaultType.Error (reachTimes action 2 q w).2).1 ∧
      (reachTimes action 4 q w).2 = (reachTimes action 3 q w).2) ∧
    (∀ n : Nat, 1 ≤ n →
      ∃ q, arm p FaultType.Error ddlFilter (Budget.count (n : Int)) = .ok q ∧
        q.state = FaultState.Waiting ∧
        ∀ k : Nat,
          (reachTimes action k q w).2
            = (fun x => (action FaultType.Error x).1)^[min k n] w ∧
          (1 ≤ k → k < n → (reachTimes action k q w).1.state = FaultState.Triggered) ∧
          (n ≤ k → (reachTimes action k q w).1.state = FaultState.Completed)) := by
  have key : ∀ n : Nat, 1 ≤ n →
      ∃ q, arm p FaultType.Error ddlFilter (Budget.count (n : Int)) = .ok q ∧
        q.state = FaultState.Waiting ∧
        ∀ k : Nat,
          (reachTimes action k q w).2
            = (fun x => (action FaultType.Error x).1)^[min k n] w ∧
          (1 ≤ k → k < n → (reachTimes action k q w).1.state = FaultState.Triggered) ∧
          (n ≤ k → (reachTimes action k q w).1.state = FaultState.Completed) := by
    intro n hn
    obtain ⟨m, rfl⟩ : ∃ m, n = m + 1 := ⟨n - 1, by omega⟩
    refine ⟨{ p with
        faultType := FaultType.Error
        ddlFilter := ddlFilter
        remaining := Budget.count ((m + 1 : Nat) : Int)
        state := FaultState.Waiting }, ?_, rfl, ?_⟩
    · have hv : (Budget.count ((m + 1 : Nat) : Int)).valid = true :=
        decide_eq_true (by omega)
      unfold arm
      rw [if_neg (by rw [hp]; exact fun h => h rfl), if_neg (by rw [hv]; decide)]
    · intro k
      exact reachTimes_armed action hok k m _ w (Or.inl rfl) rfl rfl
  refine ⟨?_, key⟩
  obtain ⟨q, hq, hw, hk⟩ := key 3 (by decide)
  have e₁ := hk 1
  have e₂ := hk 2
  have e₃ := hk 3
  have e₄ := hk 4
  refine ⟨q, hq, hw, e₁.2.1 (by decide) (by decide), e₂.2.1 (by decide) (by decide),
    e₃.2.2 (by decide), e₄.2.2 (by decide), ?_, ?_, ?_, ?_⟩
  · rw [e₁.1]; rfl
  · rw [e₂.1, e₁.1]; rfl
  · rw [e₃.1, e₂.1]; rfl
  · rw [e₄.1, e₃.1]; rfl

/-- Witness of C9: a fresh point armed with `(Error, budget = 3)` and a
callback that counts its invocations.  The counter reads 1, 2, 3 after the
first three calls of `reach` and still 3 after the fourth. -/
theorem trigger_budget_witness :
    (freshPoint "p").state = FaultState.NotInitialized ∧
    (∀ n : Nat, (countingAction FaultType.Error n).2 = true) ∧
    ∃ q, arm (freshPoint "p") FaultType.Error none (Budget.count 3) = .ok q ∧
      q.state = FaultState.Waiting ∧
      (reachTimes countingAction 1 q 0).1.state = FaultState.Triggered ∧
      (reachTimes countingAction 2 q 0).1.state = FaultState.Triggered ∧
      (reachTimes countingAction 3 q 0).1.state = FaultState.Completed ∧
      (reachTimes countingAction 4 q 0).1.state = FaultState.Completed ∧
      (reachTimes countingAction 1 q 0).2 = 1 ∧
      (reachTimes countingAction 2 q 0).2 = 2 ∧
      (reachTimes countingAction 3 q 0).2 = 3 ∧
      (reachTimes countingAction 4 q 0).2 = 3 := by
  refine ⟨rfl, fun _ => rfl, ?_⟩
  obtain ⟨q, hq, hw, h₁, h₂, h₃, h₄, w₁, w₂, w₃, w₄⟩ :=
    (trigger_budget (freshPoint "p") rfl none countingAction (fun _ => rfl) 0).1
  refine ⟨q, hq, hw, h₁, h₂, h₃, h₄, ?_, ?_, ?_, ?_⟩
  · rw [w₁]; rfl
  · rw [w₂, w₁]; rfl
  · rw [w₃, w₂, w₁]; rfl
  · rw [w₄, w₃, w₂, w₁]; rfl

/-- C10: `reset` is total and idempotent.  For every fault point, whatever
its state and remaining budget, `reset` yields a point in state
NotInitialized whose budget is cleared, and resetting twice gives the same
point as resetting once. -/
theorem reset_idempotent (p : FaultInjectionPoint) :
    (reset p).state = FaultState.NotInitialized ∧
    (reset p).remaining = Budget.count 0 ∧
    status (reset p) = FaultState.NotInitialized ∧
    reset (reset p) = reset p :=
  ⟨rfl, rfl, rfl, rfl⟩

/-- C11: `arm` is atomic on conflict.  For every fault point whose state is
Waiting and every type, filter and budget, `arm` fails with `AlreadyArmed`,
and the point after the call is the point before it: type, filter, remaining
budget and state are unchanged. -/
theorem arm_conflict (p : FaultInjectionPoint) (type : FaultType)
    (ddlFilter : Option DDLStatementKind) (triggerBudget : Budget)
    (h : p.state = FaultState.Waiting) :
    arm p type ddlFilter triggerBudget = .error FaultError.AlreadyArmed ∧
    (armPoint p type ddlFilter triggerBudget).2 = .error FaultError.AlreadyArmed ∧
    (armPoint p type ddlFilter triggerBudget).1 = p ∧
    (armPoint p type ddlFilter triggerBudget).1.faultType = p.faultType ∧
    (armPoint p type ddlFilter triggerBudget).1.ddlFilter = p.ddlFilter ∧
    (armPoint p type ddlFilter triggerBudget).1.remaining = p.remaining ∧
    (armPoint p type ddlFilter triggerBudget).1.state = FaultState.Waiting := by
  have harm : arm p type ddlFilter triggerBudget = .error FaultError.AlreadyArmed := by
    unfold arm
    rw [if_pos (by rw [h]; decide)]
  have hpoint : armPoint p type ddlFilter triggerBudget
      = (p, .error FaultError.AlreadyArmed) := by
    unfold armPoint
    rw [harm]
  rw [hpoint]
  exact ⟨harm, rfl, rfl, rfl, rfl, rfl, h⟩

/-- Witness of C11: a point armed with `(Sleep, budget = 2)` is armed again
with `(Panic, Vacuum, budget = 0)`; the call is rejected with `AlreadyArmed`,
not `InvalidBudget`, and the first configuration stays. -/
theorem arm_conflict_witness :
    (⟨"p", FaultType.Sleep, none, Budget.count 2, FaultState.Waiting⟩ :
        FaultInjectionPoint).state = FaultState.Waiting ∧
    arm ⟨"p", FaultType.Sleep, none, Budget.count 2, FaultState.Waiting⟩
        FaultType.Panic (some DDLStatementKind.Vacuum) (Budget.count 0)
      = .error FaultError.AlreadyArmed ∧
    (armPoint ⟨"p", FaultType.Sleep, none, Budget.count 2, FaultState.Waiting⟩
        FaultType.Panic (some DDLStatementKind.Vacuum) (Budget.count 0)).1
      = ⟨"p", FaultType.Sleep, none, Budget.count 2, FaultState.Waiting⟩ :=
  ⟨rfl,
   (arm_conflict ⟨"p", FaultType.Sleep, none, Budget.count 2, FaultState.Waiting⟩
      FaultType.Panic (some DDLStatementKind.Vacuum) (Budget.count 0) rfl).1,
   (arm_conflict ⟨"p", FaultType.Sleep, none, Budget.count 2, FaultState.Waiting⟩
      FaultType.Panic (some DDLStatementKind.Vacuum) (Budget.count 0) rfl).2.2.1⟩

/-! ## The header under the preprocessor -/

/-- C13: domain independence of the projection.  Whatever subset of
`FI_TYPE`, `FI_DDL_STATEMENT`, `FI_STATE` is defined, including the header
expands to the invocations of the selected lists, each list whole and in list
order, concatenated in the order type, DDL, state.  With exactly one macro
defined that is exactly that list (14, 13 and 5 invocations) and no
invocation of another macro; with none defined it is nothing. -/
theorem include_selects_domains (defined : Domain → Bool) :
    includeHeader defined
      = (if defined Domain.FI_TYPE then Domain.FI_TYPE.invocations else [])
        ++ (if defined Domain.FI_DDL_STATEMENT then Domain.FI_DDL_STATEMENT.invocations
            else [])
        ++ (if defined Domain.FI_STATE then Domain.FI_STATE.invocations else []) ∧
    (∀ d : Domain,
      includeHeader (fun x => x == d) = d.invocations ∧
      (includeHeader (fun x => x == d)).map Prod.snd = d.entries ∧
      (includeHeader (fun x => x == d)).all (fun i => i.1 == d) = true) ∧
    (includeHeader (fun x => x == Domain.FI_TYPE)).length = 14 ∧
    (includeHeader (fun x => x == Domain.FI_DDL_STATEMENT)).length = 13 ∧
    (includeHeader (fun x => x == Domain.FI_STATE)).length = 5 ∧
    includeHeader (fun _ => false) = [] := by
  refine ⟨?_, ?_, by decide, by decide, by decide, by decide⟩
  · cases h₁ : defined Domain.FI_TYPE <;> cases h₂ : defined Domain.FI_DDL_STATEMENT <;>
      cases h₃ : defined Domain.FI_STATE <;>
      simp [includeHeader, faultinjector_lists, Domain.invocations, Domain.entries,
        h₁, h₂, h₃]
  · intro d
    cases d <;> decide

/-! ## Display strings -/

/-- C14: the state display strings are not derived from the enumerator
names.  The strings of NotInitialized, Waiting, Triggered, Completed, Failed
are `not initialized`, `set`, `triggered`, `completed`, `failed`; the Waiting
state is displayed as `set`, and the reverse lookup of `waiting` in the state
list fails. -/
theorem state_display_strings :
    FI_STATE.map (fun e => (e.id, e.str)) =
      [("FaultInjectorStateNotInitialized", "not initialized"),
       ("FaultInjectorStateWaiting", "set"),
       ("FaultInjectorStateTriggered", "triggered"),
       ("FaultInjectorStateCompleted", "completed"),
       ("FaultInjectorStateFailed", "failed")] ∧
    registry FI_STATE =
      [(0, "not initialized"), (1, "set"), (2, "triggered"), (3, "completed"),
       (4, "failed")] ∧
    (enumValue FI_STATE "FaultInjectorStateWaiting" = some 1 ∧
      displayString FI_STATE 1 = .ok "set") ∧
    "waiting" ∉ stringProjection FI_STATE ∧
    reverseLookup FI_STATE "waiting" = .error FaultError.UnknownIdentifier ∧
    reverseLookup FI_STATE "set" = .ok 1 := by
  decide

/-- C15: display strings do not collide across lists, except for the empty
string.  A non-empty string that is a display string of one list is a display
string of no other list; `reset` and `status` belong to the type list only
and `set` to the state list only; the empty string is the display string of
the enumerator with value 0 in both the type and the DDL list. -/
theorem no_cross_domain_collision (d₁ d₂ : Domain) (s : String)
    (hne : s ≠ "")
    (h₁ : s ∈ stringProjection d₁.entries) (h₂ : s ∈ stringProjection d₂.entries) :
    d₁ = d₂ ∧
    (∀ d : Domain, "reset" ∈ stringProjection d.entries ↔ d = Domain.FI_TYPE) ∧
    (∀ d : Domain, "status" ∈ stringProjection d.entries ↔ d = Domain.FI_TYPE) ∧
    (∀ d : Domain, "set" ∈ stringProjection d.entries ↔ d = Domain.FI_STATE) ∧
    (registry FI_TYPE).filter (fun p => p.2 == "") = [(0, "")] ∧
    (registry FI_DDL_STATEMENT).filter (fun p => p.2 == "") = [(0, "")] := by
  have key : ∀ a b : Domain, ∀ x ∈ stringProjection a.entries,
      x ≠ "" → x ∈ stringProjection b.entries → a = b := by
    intro a b
    cases a <;> cases b <;> decide
  refine ⟨key d₁ d₂ s h₁ hne h₂, ?_, ?_, ?_, by decide, by decide⟩ <;>
    · intro d
      cases d <;> decide

/-- Witness of C15 at the string `set`, found in the state list. -/
theorem no_cross_domain_collision_witness :
    "set" ≠ "" ∧
    "set" ∈ stringProjection Domain.FI_STATE.entries ∧
    Domain.FI_STATE = Domain.FI_STATE ∧
    (∀ d : Domain, "set" ∈ stringProjection d.entries ↔ d = Domain.FI_STATE) :=
  ⟨by decide, by decide,
   (no_cross_domain_collision Domain.FI_STATE Domain.FI_STATE "set"
      (by decide) (by decide) (by decide)).1,
   (no_cross_domain_collision Domain.FI_STATE Domain.FI_STATE "set"
      (by decide) (by decide) (by decide)).2.2.2.1⟩

/-- C16: the empty string is reserved for "not specified".  In the type and
the DDL list the enumerator with value 0 is the only one whose display string
is empty, and the reverse lookup of the empty string returns 0 there; in the
state list no display string is empty (value 0 is displayed as
`not initialized`), and the reverse lookup of the empty string fails with
`UnknownIdentifier`. -/
theorem empty_string_reserved :
    (FI_TYPE.filter (fun e => e.str == "")
        = [⟨"FaultInjectorTypeNotSpecified", some 0, ""⟩] ∧
      enumValue FI_TYPE "FaultInjectorTypeNotSpecified" = some 0 ∧
      reverseLookup FI_TYPE "" = .ok 0) ∧
    (FI_DDL_STATEMENT.filter (fun e => e.str == "")
        = [⟨"DDLNotSpecified", some 0, ""⟩] ∧
      enumValue FI_DDL_STATEMENT "DDLNotSpecified" = some 0 ∧
      reverseLookup FI_DDL_STATEMENT "" = .ok 0) ∧
    (FI_STATE.filter (fun e => e.str == "") = [] ∧
      "" ∉ stringProjection FI_STATE ∧
      displayString FI_STATE 0 = .ok "not initialized" ∧
      reverseLookup FI_STATE "" = .error FaultError.UnknownIdentifier) := by
  decide

end FaultInjector
